import Mathlib

/-!
Verification of the FcstLabPro walk-forward evaluation core.

Shallow embedding of:
  * `src/data/splitter.py`        — `walk_forward_split` (fold generator)
  * `src/evaluation/metrics.py`   — `compute_metrics` (delegating to sklearn metric
    semantics with `zero_division=0`)
  * `src/evaluation/backtest.py`  — `run_walk_forward` (fold loop, per-fold results,
    concatenation, aggregate metrics, importance accumulation, last model)
  * `src/evaluation/threshold_optimizer.py` — `optimize_threshold`, `apply_threshold`
  * `src/evaluation/ensemble.py`  — the regime computation (`close > 200MA`) and the
    per-fold prediction combination loop of `run_ensemble_evaluation`

Numbers are rationals (`ℚ`); numpy float NaN is modelled as `Option.none` where it can
arise (Cohen's kappa on a degenerate confusion matrix).  Python exceptions are modelled
with `Except`.  Labels are natural numbers.
-/

namespace FcstLab

/-- Decidable equality for `Except`, used to settle concrete runs by `decide`. -/
instance {ε α : Type _} [DecidableEq ε] [DecidableEq α] : DecidableEq (Except ε α) := fun x y =>
  match x, y with
  | .ok a, .ok b =>
    if h : a = b then .isTrue (by rw [h]) else .isFalse (fun hc => h (Except.ok.inj hc))
  | .error a, .error b =>
    if h : a = b then .isTrue (by rw [h]) else .isFalse (fun hc => h (Except.error.inj hc))
  | .ok _, .error _ => .isFalse (fun hc => Except.noConfusion hc)
  | .error _, .ok _ => .isFalse (fun hc => Except.noConfusion hc)

/-- One fold's train/test indices, mirroring `FoldSplit` of `src/data/splitter.py`. -/
structure FoldSplit where
  fold_id : Nat
  train_start : Nat
  train_end : Nat
  test_start : Nat
  test_end : Nat
deriving Repr, DecidableEq

/-- The `ValueError`s raised by `walk_forward_split`, carried as data. -/
inductive ConfigError where
  | initTooLarge (init n : Nat)
  | noFolds
deriving Repr, DecidableEq

/-- The `while train_end + oos_window <= n_samples` loop of `walk_forward_split`.
`fuel` is a structural-termination bound only: for `0 < step` the Python loop performs
at most `n + 1` iterations, so with `fuel = n + 1` the fuel never runs out before the
loop condition fails and the function computes exactly the Python fold list.  (For
`step = 0` the Python loop never terminates; that parameter region is outside every
theorem below, all of which assume `0 < step`.) -/
def wfLoop (n oos step : Nat) : Nat → Nat → Nat → List FoldSplit
  | 0, _, _ => []
  | fuel + 1, train_end, fold_id =>
    if train_end + oos ≤ n then
      { fold_id := fold_id, train_start := 0, train_end := train_end,
        test_start := train_end, test_end := min (train_end + oos) n } ::
        wfLoop n oos step fuel (train_end + step) (fold_id + 1)
    else []

/-- `walk_forward_split` of `src/data/splitter.py`: raises if `init_train >= n_samples`,
generates expanding-window folds, raises if no fold was generated. -/
def walk_forward_split (n init oos step : Nat) : Except ConfigError (List FoldSplit) :=
  if init ≥ n then .error (.initTooLarge init n)
  else
    let folds := wfLoop n oos step (n + 1) init 0
    if folds.isEmpty then .error .noFolds else .ok folds

/-! ### Metrics engine (`src/evaluation/metrics.py`)

`compute_metrics` delegates to sklearn with `zero_division=0`.  The sklearn semantics
embedded here:
  * per-class precision/recall/F1 from confusion counts, with `0` on a zero denominator;
  * macro averaging over the sorted distinct labels of `y_true ∪ y_pred` (order is
    irrelevant to a mean, so we average over the first-occurrence dedup);
  * weighted averaging with supports (counts in `y_true`) as weights;
  * `average="binary"` raises `ValueError` when the union of labels has more than two
    distinct values, or has exactly two distinct values neither of which is
    `pos_label = 1`;
  * `cohen_kappa_score` returns NaN (modelled `none`) when the off-diagonal expected
    agreement is zero, i.e. when the chance agreement `pe` equals 1;
  * empty or length-mismatched inputs raise (sklearn `check_consistent_length` /
    `type_of_target`). -/

/-- Occurrences of label `v` in `l`. -/
def cnt (l : List Nat) (v : Nat) : Nat := l.count v

/-- Positions where `y1` reads `a` and `y2` reads `b` (confusion-matrix cell). -/
def pairCnt (y1 y2 : List Nat) (a b : Nat) : Nat := (y1.zip y2).count (a, b)

/-- Positions where `y1` and `y2` agree. -/
def matchCnt (y1 y2 : List Nat) : Nat := (y1.zip y2).countP (fun p => p.1 == p.2)

/-- The distinct labels occurring in either series (sklearn's label union). -/
def labelsOf (y1 y2 : List Nat) : List Nat := (y1 ++ y2).dedup

/-- sklearn `accuracy_score`. -/
def accuracy_score (y1 y2 : List Nat) : ℚ := (matchCnt y1 y2 : ℚ) / (y1.length : ℚ)

/-- Per-class precision with the `zero_division=0` policy. -/
def prec_class (y1 y2 : List Nat) (c : Nat) : ℚ :=
  if cnt y2 c = 0 then 0 else (pairCnt y1 y2 c c : ℚ) / (cnt y2 c : ℚ)

/-- Per-class recall with the `zero_division=0` policy. -/
def rec_class (y1 y2 : List Nat) (c : Nat) : ℚ :=
  if cnt y1 c = 0 then 0 else (pairCnt y1 y2 c c : ℚ) / (cnt y1 c : ℚ)

/-- Per-class F1 (`2·tp / (support_true + support_pred)`) with `zero_division=0`. -/
def f1_class (y1 y2 : List Nat) (c : Nat) : ℚ :=
  if cnt y1 c + cnt y2 c = 0 then 0
  else (2 * (pairCnt y1 y2 c c) : ℚ) / ((cnt y1 c + cnt y2 c : Nat) : ℚ)

/-- Macro averaging of a per-class score over the label union. -/
def macroAvg (y1 y2 : List Nat) (score : Nat → ℚ) : ℚ :=
  ((labelsOf y1 y2).map score).sum / ((labelsOf y1 y2).length : ℚ)

/-- Support-weighted averaging of a per-class score over the label union. -/
def weightedAvg (y1 y2 : List Nat) (score : Nat → ℚ) : ℚ :=
  ((labelsOf y1 y2).map (fun c => score c * (cnt y1 c : ℚ))).sum / (y1.length : ℚ)

/-- sklearn's validation for `average="binary"` with `pos_label=1`
(`_check_set_wise_labels`): more than two distinct labels is multiclass; exactly two
distinct labels neither of which is `1` makes `pos_label=1` invalid. -/
def binaryCheck (y1 y2 : List Nat) : Except String Unit :=
  if 2 < (labelsOf y1 y2).length then
    .error ("Target is multiclass but average=binary")
  else if (labelsOf y1 y2).length = 2 ∧ 1 ∉ labelsOf y1 y2 then
    .error ("pos_label=1 is not a valid label")
  else .ok ()

/-- sklearn `precision_score(..., average="binary", zero_division=0)`. -/
def precision_binary_score (y1 y2 : List Nat) : Except String ℚ :=
  (binaryCheck y1 y2).map (fun _ => prec_class y1 y2 1)

/-- sklearn `recall_score(..., average="binary", zero_division=0)`. -/
def recall_binary_score (y1 y2 : List Nat) : Except String ℚ :=
  (binaryCheck y1 y2).map (fun _ => rec_class y1 y2 1)

/-- sklearn `f1_score(..., average="binary", zero_division=0)`. -/
def f1_binary_score (y1 y2 : List Nat) : Except String ℚ :=
  (binaryCheck y1 y2).map (fun _ => f1_class y1 y2 1)

/-- `Σ_c count(y1, c) · count(y2, c)`: `n²` times the chance agreement `pe`. -/
def kappaPairSum (y1 y2 : List Nat) : Nat :=
  ((labelsOf y1 y2).map (fun c => cnt y1 c * cnt y2 c)).sum

/-- sklearn `cohen_kappa_score`: `(po - pe) / (1 - pe)`, NaN (`none`) when `pe = 1`
(both marginals concentrated on one common class), since sklearn then divides `0/0`. -/
def cohen_kappa_score (y1 y2 : List Nat) : Option ℚ :=
  if kappaPairSum y1 y2 = y1.length * y1.length then none
  else
    let n : ℚ := (y1.length : ℚ)
    let po : ℚ := (matchCnt y1 y2 : ℚ) / n
    let pe : ℚ := (kappaPairSum y1 y2 : ℚ) / (n * n)
    some ((po - pe) / (1 - pe))

/-- One requested metric: `none` = unknown name (skipped with a warning in the source),
`some (.error e)` = the sklearn call raises, `some (.ok v)` = computed value (`v = none`
models a NaN result). -/
def metricValue (y1 y2 : List Nat) : String → Option (Except String (Option ℚ))
  | "accuracy" => some (.ok (some (accuracy_score y1 y2)))
  | "f1_macro" => some (.ok (some (macroAvg y1 y2 (f1_class y1 y2))))
  | "f1_weighted" => some (.ok (some (weightedAvg y1 y2 (f1_class y1 y2))))
  | "f1_binary" => some ((f1_binary_score y1 y2).map some)
  | "precision_macro" => some (.ok (some (macroAvg y1 y2 (prec_class y1 y2))))
  | "precision_binary" => some ((precision_binary_score y1 y2).map some)
  | "recall_macro" => some (.ok (some (macroAvg y1 y2 (rec_class y1 y2))))
  | "recall_binary" => some ((recall_binary_score y1 y2).map some)
  | "cohen_kappa" => some (.ok (cohen_kappa_score y1 y2))
  | _ => none

/-- The insertion order of the `all_metrics` dict in `compute_metrics`. -/
def metricKeys : List String :=
  ["accuracy", "f1_macro", "f1_weighted", "f1_binary", "precision_macro",
   "precision_binary", "recall_macro", "recall_binary", "cohen_kappa"]

/-- The `for name in metric_names` loop of `compute_metrics`: unknown names are
skipped, a raising sklearn call aborts the whole computation. -/
def computeMetricsGo (y1 y2 : List Nat) : List String → Except String (List (String × Option ℚ))
  | [] => .ok []
  | nm :: rest =>
    match metricValue y1 y2 nm with
    | none => computeMetricsGo y1 y2 rest
    | some (.error e) => .error e
    | some (.ok v) =>
      match computeMetricsGo y1 y2 rest with
      | .error e => .error e
      | .ok r => .ok ((nm, v) :: r)

/-- `compute_metrics` of `src/evaluation/metrics.py`.  `names = none` computes every
metric of `metricKeys` (Python `metric_names is None`). -/
def compute_metrics (y1 y2 : List Nat) (names : Option (List String)) :
    Except String (List (String × Option ℚ)) :=
  if y1.length = y2.length ∧ 0 < y1.length then computeMetricsGo y1 y2 (names.getD metricKeys)
  else .error ("sklearn: y_true and y_pred have inconsistent or empty length")

/-! ### Walk-forward backtest driver (`src/evaluation/backtest.py`)

The classifier registry resolves `model_type` to a `BaseModel` class; the driver only
uses the capability interface `fit` / `predict` / `predict_proba` /
`feature_importance`.  We embed a resolved classifier as a record of pure functions;
methods that can raise return `Except String`.  Feature matrices are lists of rows of
rationals; labels are lists of naturals. -/

/-- Python slice `l[a:b]` for `0 ≤ a ≤ b`. -/
def slice (l : List α) (a b : Nat) : List α := (l.drop a).take (b - a)

/-- Boolean success test for `Except`, mirroring "does not raise". -/
def exOk : Except ε α → Bool
  | .ok _ => true
  | .error _ => false

/-- A fitted classifier: `predict`, `predict_proba` (both can raise) and
`feature_importance()` (a plain vector). -/
structure FittedModel where
  predict : List (List ℚ) → Except String (List Nat)
  predict_proba : List (List ℚ) → Except String (List (List ℚ))
  feature_importance : List ℚ

/-- A classifier family as resolved by `create_model`: `fit(X, y)` returns the fitted
model or raises. -/
structure ModelSpec where
  fit : List (List ℚ) → List Nat → Except String FittedModel

/-- The exceptions `run_walk_forward` can propagate: fold-generation `ValueError`s,
model `fit`/`predict` exceptions, and sklearn metric exceptions. -/
inductive BTError where
  | config (e : ConfigError)
  | model (msg : String)
  | metric (msg : String)
deriving Repr, DecidableEq

/-- `FoldResult` of `src/evaluation/backtest.py`. -/
structure FoldResult where
  fold_id : Nat
  train_size : Nat
  test_size : Nat
  metrics : List (String × Option ℚ)
  y_true : List Nat
  y_pred : List Nat
  y_proba : Option (List (List ℚ))
  feature_importance : Option (List ℚ)
deriving Repr, DecidableEq

/-- `BacktestResult` of `src/evaluation/backtest.py` (fields as set by the driver). -/
structure BacktestResult where
  folds : List FoldResult
  aggregate_metrics : List (String × Option ℚ)
  all_y_true : List Nat
  all_y_pred : List Nat
  last_model : Option FittedModel

/-- One step of the `importance_sum` accumulation (`fi.copy()` on the first fold,
numpy elementwise `+=` afterwards). -/
def impAcc (acc : Option (List ℚ)) (fi : List ℚ) : Option (List ℚ) :=
  some (match acc with
        | none => fi
        | some s => List.zipWith (· + ·) s fi)

/-- Left fold of `impAcc` starting from `None`, the loop's accumulated raw sum. -/
def importance_fold_sum (l : List (List ℚ)) : Option (List ℚ) := l.foldl impAcc none

/-- The `for fold in folds` loop of `run_walk_forward`.  Returns (in fold order) the
`FoldResult` list, the concatenated test labels and predictions, the final
`importance_sum` accumulator, and the last fold's fitted model.  `fit` and `predict`
exceptions propagate; `predict_proba` is wrapped in `try/except` and failure stores
`None`; `compute_metrics` exceptions also propagate (the source does not catch them). -/
def runFolds (ms : ModelSpec) (X : List (List ℚ)) (y : List Nat)
    (mnames : Option (List String)) :
    List FoldSplit → Option (List ℚ) →
      Except BTError (List FoldResult × List Nat × List Nat × Option (List ℚ) × Option FittedModel)
  | [], isum => .ok ([], [], [], isum, none)
  | f :: rest, isum =>
    match ms.fit (slice X f.train_start f.train_end) (slice y f.train_start f.train_end) with
    | .error e => .error (.model e)
    | .ok fitted =>
      match fitted.predict (slice X f.test_start f.test_end) with
      | .error e => .error (.model e)
      | .ok ypred =>
        match compute_metrics (slice y f.test_start f.test_end) ypred mnames with
        | .error e => .error (.metric e)
        | .ok mets =>
          let yte := slice y f.test_start f.test_end
          let yproba := (fitted.predict_proba (slice X f.test_start f.test_end)).toOption
          let fi := fitted.feature_importance
          match runFolds ms X y mnames rest (impAcc isum fi) with
          | .error e => .error e
          | .ok (frs, ts, ps, isumF, lastF) =>
            .ok ({ fold_id := f.fold_id, train_size := f.train_end - f.train_start,
                   test_size := f.test_end - f.test_start, metrics := mets,
                   y_true := yte, y_pred := ypred, y_proba := yproba,
                   feature_importance := some fi } :: frs,
                 yte ++ ts, ypred ++ ps, isumF, some (lastF.getD fitted))

/-- `run_walk_forward` of `src/evaluation/backtest.py`: generate folds, run the fold
loop, concatenate labels/predictions in fold order, compute aggregate metrics over the
pooled concatenation, and retain the last fold's model.  Note that the final
`importance_sum` accumulator is dropped on the floor: no `BacktestResult` field
receives it. -/
def run_walk_forward (ms : ModelSpec) (X : List (List ℚ)) (y : List Nat)
    (init oos step : Nat) (mnames : Option (List String)) : Except BTError BacktestResult :=
  match walk_forward_split X.length init oos step with
  | .error e => .error (.config e)
  | .ok folds =>
    match runFolds ms X y mnames folds none with
    | .error e => .error e
    | .ok (frs, ts, ps, _, lastM) =>
      match compute_metrics ts ps mnames with
      | .error e => .error (.metric e)
      | .ok agg =>
        .ok { folds := frs, aggregate_metrics := agg, all_y_true := ts,
              all_y_pred := ps, last_model := lastM }

/-- The `importance_sum` accumulator at the end of the fold loop, exposed for the
theorems (the source computes it and then discards it). -/
def run_importance_sum (ms : ModelSpec) (X : List (List ℚ)) (y : List Nat)
    (init oos step : Nat) (mnames : Option (List String)) :
    Except BTError (Option (List ℚ)) :=
  match walk_forward_split X.length init oos step with
  | .error e => .error (.config e)
  | .ok folds =>
    match runFolds ms X y mnames folds none with
    | .error e => .error e
    | .ok (_, _, _, isum, _) => .ok isum

/-- The exception-relevant part of one fold: `fit` on the train slice then `predict`
on the test slice (the two calls whose exceptions `run_walk_forward` propagates). -/
def foldOutcome (ms : ModelSpec) (X : List (List ℚ)) (y : List Nat) (f : FoldSplit) :
    Except String (List Nat) :=
  match ms.fit (slice X f.train_start f.train_end) (slice y f.train_start f.train_end) with
  | .error e => .error e
  | .ok fitted => fitted.predict (slice X f.test_start f.test_end)

/-- One fold's `predict_proba` attempt (refitting the same deterministic model). -/
def foldProba (ms : ModelSpec) (X : List (List ℚ)) (y : List Nat) (f : FoldSplit) :
    Except String (List (List ℚ)) :=
  match ms.fit (slice X f.train_start f.train_end) (slice y f.train_start f.train_end) with
  | .error e => .error e
  | .ok fitted => fitted.predict_proba (slice X f.test_start f.test_end)

/-- A deterministic classifier used for concrete runs: always fits, predicts the zero
class for every row, has no `predict_proba`, and reports a fixed importance vector. -/
def constFitted (fi : List ℚ) : FittedModel where
  predict := fun xs => .ok (xs.map (fun _ => 0))
  predict_proba := fun _ => .error ("predict_proba unsupported")
  feature_importance := fi

/-- The classifier family wrapping `constFitted`. -/
def constModel (fi : List ℚ) : ModelSpec where
  fit := fun _ _ => .ok (constFitted fi)

/-! ### Threshold optimizer (`src/evaluation/threshold_optimizer.py`)

`optimize_threshold` scans candidate thresholds in the given order, skipping
all-one-class predictions and (under a positive `min_precision`) thresholds whose
binary precision is below the floor, and keeps the first strict improvement of the
objective.  `best_score` starts at `-inf`, modelled as `⊥ : WithBot ℚ`.  The sklearn
metric calls are embedded for the binary-coded label domain documented by the source
(`y_true : 0/1`); a NaN objective (kappa on a degenerate confusion matrix, unreachable
after the all-one-class skip) is modelled as `none` and never beats `best_score`,
matching `NaN > x = False`. -/

/-- The optimization objectives of `optimize_threshold` (its `metric` argument). -/
inductive ThMetric where
  | f1
  | kappa
  | youden
  | precisionRecall
  | macroF1
deriving Repr, DecidableEq

/-- `apply_threshold`: `label = 1 if proba >= threshold else 0`, elementwise. -/
def apply_threshold (proba : List ℚ) (t : ℚ) : List Nat :=
  proba.map (fun p => if t ≤ p then 1 else 0)

/-- Youden's J from the confusion counts, with the source's explicit zero guards. -/
def youdenScore (y1 yp : List Nat) : ℚ :=
  let tp := pairCnt y1 yp 1 1
  let tn := pairCnt y1 yp 0 0
  let fp := pairCnt y1 yp 0 1
  let fn := pairCnt y1 yp 1 0
  let sens : ℚ := if tp + fn = 0 then 0 else (tp : ℚ) / ((tp + fn : Nat) : ℚ)
  let spec : ℚ := if tn + fp = 0 then 0 else (tn : ℚ) / ((tn + fp : Nat) : ℚ)
  sens + spec - 1

/-- The objective value of one candidate's prediction vector (`none` models a NaN
score from `cohen_kappa_score`). -/
def thScore (y1 yp : List Nat) : ThMetric → Option ℚ
  | .f1 => some (f1_class y1 yp 1)
  | .kappa => cohen_kappa_score y1 yp
  | .youden => some (youdenScore y1 yp)
  | .precisionRecall => some (f1_class y1 yp 1)
  | .macroF1 => some (macroAvg y1 yp (f1_class y1 yp))

/-- A candidate threshold is excluded when its prediction is all one class
(`y_pred.sum()` is `0` or `len`) or, for a positive `min_precision`, when its binary
precision is below the floor. -/
def excludedCand (y1 : List Nat) (proba : List ℚ) (minPrec : ℚ) (t : ℚ) : Prop :=
  (apply_threshold proba t).sum = 0 ∨
    (apply_threshold proba t).sum = (apply_threshold proba t).length ∨
    (0 < minPrec ∧ prec_class y1 (apply_threshold proba t) 1 < minPrec)

instance (y1 : List Nat) (proba : List ℚ) (minPrec : ℚ) (t : ℚ) :
    Decidable (excludedCand y1 proba minPrec t) := by
  unfold excludedCand
  infer_instance

/-- The objective score a candidate contributes, `none` when the candidate is
excluded (or its sklearn score is NaN, which never updates the running best). -/
def evalCand (y1 : List Nat) (proba : List ℚ) (metric : ThMetric) (minPrec : ℚ) (t : ℚ) :
    Option ℚ :=
  if excludedCand y1 proba minPrec t then none
  else thScore y1 (apply_threshold proba t) metric

/-- One iteration of the scan: keep the previous best unless this candidate has a
defined score strictly above it (`score > best_score`). -/
def optStep (y1 : List Nat) (proba : List ℚ) (metric : ThMetric) (minPrec : ℚ)
    (best : ℚ × WithBot ℚ) (t : ℚ) : ℚ × WithBot ℚ :=
  match evalCand y1 proba metric minPrec t with
  | none => best
  | some s => if best.2 < (s : WithBot ℚ) then (t, (s : WithBot ℚ)) else best

/-- `optimize_threshold` of `src/evaluation/threshold_optimizer.py`, for an explicit
candidate list (`thresholds`); starts from `best_threshold = 0.5`,
`best_score = -inf`. -/
def optimize_threshold (y1 : List Nat) (proba : List ℚ) (metric : ThMetric)
    (thresholds : List ℚ) (minPrec : ℚ) : ℚ × WithBot ℚ :=
  thresholds.foldl (optStep y1 proba metric minPrec) (1 / 2, ⊥)

/-! ### Ensemble combiner (`src/evaluation/ensemble.py`)

`run_ensemble_evaluation` computes the regime itself — `regime_bull = (close >
close.rolling(200).mean()).astype(int)` — restricts it to the valid index set shared
by both models' dataframes, and then combines the two backtests' per-fold predictions
with `np.where(test_regime == 1, bull_pred, bear_pred)`, scoring the combination
against the bull model's labels.  The feature/label construction and the model runs
are external to the combination loop; the loop is embedded here over the fold list,
the two per-fold prediction lists (`bull_result.folds[k].y_pred`), the aligned regime
series and the bull label series. -/

/-- `np.where(cond == 1, a, b)` elementwise over equal-length vectors. -/
def npWhere : List Nat → List Nat → List Nat → List Nat
  | c :: cs, a :: aa, b :: bb => (if c = 1 then a else b) :: npWhere cs aa bb
  | _, _, _ => []

/-- The `for fold in folds` combination loop of `run_ensemble_evaluation` (source
lines 160–185): a fold is covered when both sub-results have a fold with its id
(otherwise it is skipped); for covered folds the regime slice gates bull vs bear
predictions and the ground truth is the bull labels' test slice.  Returns
`(all_y_true, all_y_pred, all_regime)` in fold order. -/
def combineFolds (bullPreds bearPreds : List (List Nat)) (regime yBull : List Nat) :
    List FoldSplit → List Nat × List Nat × List Nat
  | [] => ([], [], [])
  | f :: rest =>
    let acc := combineFolds bullPreds bearPreds regime yBull rest
    if f.fold_id < bullPreds.length ∧ f.fold_id < bearPreds.length then
      let tr := slice regime f.test_start f.test_end
      let cp := npWhere tr (bullPreds.getD f.fold_id []) (bearPreds.getD f.fold_id [])
      let ct := slice yBull f.test_start f.test_end
      (ct ++ acc.1, cp ++ acc.2.1, tr ++ acc.2.2)
    else acc

/-- pandas `rolling(w).mean()` at row `i`: the mean of rows `i-w+1 … i`, `NaN`
(modelled `none`) while fewer than `w` rows are available. -/
def rolling_mean (w : Nat) (l : List ℚ) (i : Nat) : Option ℚ :=
  if w ≤ i + 1 ∧ i < l.length then
    some ((((List.range w).map (fun k => l.getD (i - k) 0)).sum) / (w : ℚ))
  else none

/-- `df["regime_bull"] = (df["close"] > sma_200).astype(int)`: `1` where close is
strictly above the 200-period rolling mean, `0` elsewhere (a comparison against NaN
is `False` in pandas, so the first 199 rows are `0`). -/
def regime_bull (close : List ℚ) : List Nat :=
  (List.range close.length).map (fun i =>
    match rolling_mean 200 close i with
    | some m => if m < close.getD i 0 then 1 else 0
    | none => 0)

/-- `df.loc[valid_idx]` as positional selection of the surviving rows. -/
def select (l : List α) (idx : List Nat) : List α := idx.filterMap (fun i => l[i]?)

/-- The regime computation plus combination stage of `run_ensemble_evaluation`: the
regime series is DERIVED from `close` (price versus 200-period moving average),
restricted to the valid index set, and gates the two prediction streams over the
shared fold schedule (`walk_forward_split` over the aligned sample count). -/
def run_ensemble_gating (close : List ℚ) (validIdx : List Nat) (init oos step : Nat)
    (bullPreds bearPreds : List (List Nat)) (yBull : List Nat) :
    Except ConfigError (List Nat × List Nat × List Nat) :=
  let regime := select (regime_bull close) validIdx
  match walk_forward_split validIdx.length init oos step with
  | .error e => .error e
  | .ok folds => .ok (combineFolds bullPreds bearPreds regime yBull folds)

/-- Modelled from the spec: the combiner of §4.3 receives `regime_series` from the
caller ("computed by the caller … and passed in — the combiner does not compute
regime itself, only consumes it") and otherwise performs the same restriction and
fold-by-fold gating.  Used to compare the claimed contract with the source above. -/
def run_ensemble_gating_spec (regimeSeries : List Nat) (validIdx : List Nat)
    (init oos step : Nat) (bullPreds bearPreds : List (List Nat)) (yBull : List Nat) :
    Except ConfigError (List Nat × List Nat × List Nat) :=
  let regime := select regimeSeries validIdx
  match walk_forward_split validIdx.length init oos step with
  | .error e => .error e
  | .ok folds => .ok (combineFolds bullPreds bearPreds regime yBull folds)

theorem wfLoop_mem {n oos step : Nat} :
    ∀ {fuel te fid : Nat} {f : FoldSplit}, f ∈ wfLoop n oos step fuel te fid →
      f.train_start = 0 ∧ f.test_start = f.train_end ∧ f.test_end = f.train_end + oos ∧
        f.test_end ≤ n ∧ te ≤ f.train_end := by
  intro fuel
  induction fuel with
  | zero => intro te fid f hf; simp [wfLoop] at hf
  | succ fuel ih =>
    intro te fid f hf
    by_cases hle : te + oos ≤ n
    · rw [wfLoop, if_pos hle] at hf
      rcases List.mem_cons.mp hf with hf | hf
      · subst hf
        refine ⟨rfl, rfl, ?_, ?_, le_refl _⟩
        · simpa using Nat.min_eq_left hle
        · simp
      · have := ih hf
        exact ⟨this.1, this.2.1, this.2.2.1, this.2.2.2.1, by omega⟩
    · rw [wfLoop, if_neg hle] at hf
      simp at hf

theorem wfLoop_cons {n oos step fuel te fid : Nat} {f : FoldSplit} {l : List FoldSplit}
    (h : wfLoop n oos step fuel te fid = f :: l) : f.train_end = te := by
  cases fuel with
  | zero => simp [wfLoop] at h
  | succ fuel =>
    by_cases hle : te + oos ≤ n
    · rw [wfLoop, if_pos hle] at h
      cases h
      rfl
    · rw [wfLoop, if_neg hle] at h
      exact absurd h (by simp)

theorem wfLoop_chain {n oos step : Nat} (hstep : 0 < step) :
    ∀ {fuel te fid : Nat},
      List.Chain' (fun a b => a.train_end < b.train_end) (wfLoop n oos step fuel te fid) := by
  intro fuel
  induction fuel with
  | zero => intro te fid; simp [wfLoop]
  | succ fuel ih =>
    intro te fid
    by_cases hle : te + oos ≤ n
    · rw [wfLoop, if_pos hle]
      refine List.chain'_cons'.mpr ⟨?_, ih⟩
      intro b hb
      rcases hrec : wfLoop n oos step fuel (te + step) (fid + 1) with _ | ⟨g, l⟩
      · rw [hrec] at hb; simp at hb
      · rw [hrec] at hb
        simp at hb
        subst hb
        have := wfLoop_cons hrec
        simp [this]
        omega
    · rw [wfLoop, if_neg hle]
      simp

theorem wfLoop_fold_ids {n oos step : Nat} :
    ∀ {fuel te fid : Nat},
      (wfLoop n oos step fuel te fid).map FoldSplit.fold_id =
        List.range' fid (wfLoop n oos step fuel te fid).length := by
  intro fuel
  induction fuel with
  | zero => intro te fid; simp [wfLoop]
  | succ fuel ih =>
    intro te fid
    by_cases hle : te + oos ≤ n
    · rw [wfLoop, if_pos hle]
      simp [List.range'_succ, ih]
    · rw [wfLoop, if_neg hle]
      simp

/-- Helper: the fold list of a successful `walk_forward_split` is the loop's output. -/
theorem walk_forward_split_ok {n init oos step : Nat} {folds : List FoldSplit}
    (h : walk_forward_split n init oos step = .ok folds) :
    folds = wfLoop n oos step (n + 1) init 0 ∧ init < n ∧ folds ≠ [] := by
  unfold walk_forward_split at h
  by_cases hinit : init ≥ n
  · rw [if_pos hinit] at h; exact absurd h (by simp)
  · rw [if_neg hinit] at h
    by_cases hempty : (wfLoop n oos step (n + 1) init 0).isEmpty
    · simp only [hempty, if_true] at h; exact absurd h (by simp)
    · simp only [hempty, if_false] at h
      cases h
      refine ⟨rfl, by omega, ?_⟩
      simpa [List.isEmpty_iff] using hempty

/-- C1: structural invariants of every generated fold list: expanding window anchored at
index 0, test window starting exactly at the train end and ending inside the sample
range, strictly increasing train ends across successive folds (for positive step), and
no temporal leakage (`train_end ≤ test_start`). -/
theorem walk_forward_split_invariants (n init oos step : Nat) (folds : List FoldSplit)
    (hstep : 0 < step) (h : walk_forward_split n init oos step = .ok folds) :
    (∀ f ∈ folds, f.train_start = 0 ∧ f.test_start = f.train_end ∧ f.test_end ≤ n ∧
        f.train_end ≤ f.test_start) ∧
      List.Chain' (fun a b => a.train_end < b.train_end) folds := by
  obtain ⟨hfolds, -, -⟩ := walk_forward_split_ok h
  subst hfolds
  constructor
  · intro f hf
    obtain ⟨h1, h2, h3, h4, h5⟩ := wfLoop_mem hf
    exact ⟨h1, h2, h4, by omega⟩
  · exact wfLoop_chain hstep

/-- Witness for C1 at the spec's concrete example `(100, 60, 10, 10)`. -/
theorem walk_forward_split_invariants_witness :
    (0 < 10 ∧ walk_forward_split 100 60 10 10 =
        .ok [⟨0, 0, 60, 60, 70⟩, ⟨1, 0, 70, 70, 80⟩, ⟨2, 0, 80, 80, 90⟩, ⟨3, 0, 90, 90, 100⟩]) ∧
      ((∀ f ∈ [(⟨0, 0, 60, 60, 70⟩ : FoldSplit), ⟨1, 0, 70, 70, 80⟩, ⟨2, 0, 80, 80, 90⟩,
          ⟨3, 0, 90, 90, 100⟩], f.train_start = 0 ∧ f.test_start = f.train_end ∧
          f.test_end ≤ 100 ∧ f.train_end ≤ f.test_start) ∧
        List.Chain' (fun a b => a.train_end < b.train_end)
          [(⟨0, 0, 60, 60, 70⟩ : FoldSplit), ⟨1, 0, 70, 70, 80⟩, ⟨2, 0, 80, 80, 90⟩,
            ⟨3, 0, 90, 90, 100⟩]) :=
  ⟨⟨by decide, by decide⟩,
    walk_forward_split_invariants 100 60 10 10 _ (by decide) (by decide)⟩

/-- C2: the concrete four-fold example, the `ConfigurationError` on
`initial_train_size >= n_samples`, and the `ConfigurationError` on parameters that
produce an empty fold list. -/
theorem walk_forward_split_examples :
    walk_forward_split 100 60 10 10 =
        .ok [⟨0, 0, 60, 60, 70⟩, ⟨1, 0, 70, 70, 80⟩, ⟨2, 0, 80, 80, 90⟩, ⟨3, 0, 90, 90, 100⟩] ∧
      (∀ n init oos step : Nat, n ≤ init →
        walk_forward_split n init oos step = .error (.initTooLarge init n)) ∧
      walk_forward_split 100 95 10 5 = .error .noFolds := by
  refine ⟨by decide, ?_, by decide⟩
  intro n init oos step hle
  unfold walk_forward_split
  rw [if_pos (by omega)]

/-- Witness for C2's hypothesis-bearing conjunct at `init = n = 100`. -/
theorem walk_forward_split_examples_witness :
    (100 ≤ 100) ∧ walk_forward_split 100 100 10 5 = .error (.initTooLarge 100 100) :=
  ⟨by decide, walk_forward_split_examples.2.1 100 100 10 5 (by decide)⟩

/-! ### Metrics lemmas and C6 -/

theorem length_le_two_of_nodup {l : List Nat} (hn : l.Nodup) (hb : ∀ c ∈ l, c ≤ 1) :
    l.length ≤ 2 := by
  cases l with
  | nil => simp
  | cons a l2 =>
    cases l2 with
    | nil => simp
    | cons b l3 =>
      cases l3 with
      | nil => simp
      | cons c t =>
        exfalso
        have ha : a ≤ 1 := hb a (by simp)
        have hbb : b ≤ 1 := hb b (by simp)
        have hc : c ≤ 1 := hb c (by simp)
        rw [List.nodup_cons] at hn
        obtain ⟨ha1, hn2⟩ := hn
        rw [List.nodup_cons] at hn2
        obtain ⟨hb1, -⟩ := hn2
        have hab : a ≠ b := fun h => ha1 (by simp [h])
        have hac : a ≠ c := fun h => ha1 (by simp [h])
        have hbc : b ≠ c := fun h => hb1 (by simp [h])
        omega

theorem one_mem_of_two {l : List Nat} (hn : l.Nodup) (hb : ∀ c ∈ l, c ≤ 1)
    (hlen : l.length = 2) : 1 ∈ l := by
  cases l with
  | nil => simp at hlen
  | cons x l2 =>
    cases l2 with
    | nil => simp at hlen
    | cons y l3 =>
      cases l3 with
      | cons z t => simp at hlen
      | nil =>
        have hx : x ≤ 1 := hb x (by simp)
        have hy : y ≤ 1 := hb y (by simp)
        rw [List.nodup_cons] at hn
        have hxy : x ≠ y := fun h => hn.1 (by simp [h])
        have : x = 1 ∨ y = 1 := by omega
        rcases this with h | h <;> simp [h]

theorem labelsOf_le_one {y1 y2 : List Nat} (h1 : ∀ v ∈ y1, v ≤ 1) (h2 : ∀ v ∈ y2, v ≤ 1) :
    ∀ c ∈ labelsOf y1 y2, c ≤ 1 := by
  intro c hc
  rw [labelsOf, List.mem_dedup, List.mem_append] at hc
  rcases hc with h | h
  exacts [h1 c h, h2 c h]

theorem binaryCheck_ok {y1 y2 : List Nat} (h1 : ∀ v ∈ y1, v ≤ 1) (h2 : ∀ v ∈ y2, v ≤ 1) :
    binaryCheck y1 y2 = .ok () := by
  have hb := labelsOf_le_one h1 h2
  have hn : (labelsOf y1 y2).Nodup := List.nodup_dedup _
  have hle := length_le_two_of_nodup hn hb
  unfold binaryCheck
  rw [if_neg (by omega), if_neg ?_]
  rintro ⟨hlen, hmem⟩
  exact hmem (one_mem_of_two hn hb hlen)

theorem pairCnt_eq_zero_right {y1 y2 : List Nat} {a b : Nat} (h : b ∉ y2) :
    pairCnt y1 y2 a b = 0 := by
  rw [pairCnt, List.count_eq_zero]
  intro hmem
  exact h (List.of_mem_zip hmem).2

theorem dedup_replicate (v : Nat) : ∀ n : Nat, 0 < n → (List.replicate n v).dedup = [v] := by
  intro n
  induction n with
  | zero => intro h; omega
  | succ n ih =>
    intro _
    rcases Nat.eq_zero_or_pos n with h0 | hpos
    · subst h0
      simp
    · rw [List.replicate_succ, List.dedup_cons_of_mem (List.mem_replicate.mpr ⟨by omega, rfl⟩)]
      exact ih hpos

theorem kappa_const (v n : Nat) (hn : 0 < n) :
    cohen_kappa_score (List.replicate n v) (List.replicate n v) = none := by
  have hsum : kappaPairSum (List.replicate n v) (List.replicate n v) = n * n := by
    rw [kappaPairSum, labelsOf, ← List.replicate_add, dedup_replicate v (n + n) (by omega)]
    simp [cnt]
  rw [cohen_kappa_score, if_pos (by simp [hsum])]

/-- C6 counterexample: `compute_metrics` raises a sklearn `ValueError` for a
binary-averaged metric on a 3-class input, and Cohen's kappa on an identical constant
series is NaN, not a finite float. -/
theorem compute_metrics_degenerate_failures :
    compute_metrics [0, 1, 2] [0, 1, 2] (some ["f1_binary"]) =
        .error ("Target is multiclass but average=binary") ∧
      compute_metrics [0] [0] (some ["cohen_kappa"]) = .ok [("cohen_kappa", none)] := by
  constructor <;> decide

/-- C6 amended: on binary-coded inputs of equal positive length `compute_metrics` never
raises; every metric value is a defined rational under the `zero_division=0` policy
except Cohen's kappa, which is NaN when both series are one identical constant series;
binary precision and recall are `0` when the positive class is never predicted. -/
theorem compute_metrics_binary_total (y1 y2 : List Nat)
    (hlen : y1.length = y2.length) (hpos : 0 < y1.length)
    (h1 : ∀ v ∈ y1, v ≤ 1) (h2 : ∀ v ∈ y2, v ≤ 1) :
    compute_metrics y1 y2 none =
        .ok [("accuracy", some (accuracy_score y1 y2)),
             ("f1_macro", some (macroAvg y1 y2 (f1_class y1 y2))),
             ("f1_weighted", some (weightedAvg y1 y2 (f1_class y1 y2))),
             ("f1_binary", some (f1_class y1 y2 1)),
             ("precision_macro", some (macroAvg y1 y2 (prec_class y1 y2))),
             ("precision_binary", some (prec_class y1 y2 1)),
             ("recall_macro", some (macroAvg y1 y2 (rec_class y1 y2))),
             ("recall_binary", some (rec_class y1 y2 1)),
             ("cohen_kappa", cohen_kappa_score y1 y2)] ∧
      (1 ∉ y2 → prec_class y1 y2 1 = 0 ∧ rec_class y1 y2 1 = 0) ∧
      (∀ v : Nat, y1 = List.replicate y1.length v → y2 = y1 →
        cohen_kappa_score y1 y2 = none) := by
  refine ⟨?_, ?_, ?_⟩
  · rw [compute_metrics, if_pos ⟨hlen, hpos⟩]
    simp [metricKeys, computeMetricsGo, metricValue, f1_binary_score,
      precision_binary_score, recall_binary_score, binaryCheck_ok h1 h2, Except.map]
  · intro h
    constructor
    · simp [prec_class, cnt, List.count_eq_zero.mpr h]
    · by_cases hc : cnt y1 1 = 0 <;>
        simp [rec_class, hc, pairCnt_eq_zero_right h]
  · intro v hv1 hv2
    rw [hv2, hv1]
    exact kappa_const v y1.length hpos

/-- Witness for C6's amended theorem at `y_true = [0,1]`, `y_pred = [0,0]` (the
positive class is never predicted). -/
theorem compute_metrics_binary_total_witness :
    (([0, 1] : List Nat).length = ([0, 0] : List Nat).length ∧
        0 < ([0, 1] : List Nat).length ∧ (∀ v ∈ ([0, 1] : List Nat), v ≤ 1) ∧
        (∀ v ∈ ([0, 0] : List Nat), v ≤ 1)) ∧
      (compute_metrics [0, 1] [0, 0] none =
          .ok [("accuracy", some (accuracy_score [0, 1] [0, 0])),
               ("f1_macro", some (macroAvg [0, 1] [0, 0] (f1_class [0, 1] [0, 0]))),
               ("f1_weighted", some (weightedAvg [0, 1] [0, 0] (f1_class [0, 1] [0, 0]))),
               ("f1_binary", some (f1_class [0, 1] [0, 0] 1)),
               ("precision_macro", some (macroAvg [0, 1] [0, 0] (prec_class [0, 1] [0, 0]))),
               ("precision_binary", some (prec_class [0, 1] [0, 0] 1)),
               ("recall_macro", some (macroAvg [0, 1] [0, 0] (rec_class [0, 1] [0, 0]))),
               ("recall_binary", some (rec_class [0, 1] [0, 0] 1)),
               ("cohen_kappa", cohen_kappa_score [0, 1] [0, 0])] ∧
        (1 ∉ ([0, 0] : List Nat) → prec_class [0, 1] [0, 0] 1 = 0 ∧
          rec_class [0, 1] [0, 0] 1 = 0) ∧
        (∀ v : Nat, ([0, 1] : List Nat) = List.replicate ([0, 1] : List Nat).length v →
          ([0, 0] : List Nat) = [0, 1] →
          cohen_kappa_score [0, 1] [0, 0] = none)) :=
  ⟨⟨by decide, by decide, by decide, by decide⟩,
    compute_metrics_binary_total [0, 1] [0, 0] (by decide) (by decide) (by decide) (by decide)⟩

/-! ### Backtest driver lemmas, C4 and C8 -/

theorem runFolds_ok_struct {ms : ModelSpec} {X : List (List ℚ)} {y : List Nat}
    {mnames : Option (List String)} :
    ∀ {folds : List FoldSplit} {isum : Option (List ℚ)} {frs : List FoldResult}
      {ts ps : List Nat} {isumF : Option (List ℚ)} {lastM : Option FittedModel},
      runFolds ms X y mnames folds isum = .ok (frs, ts, ps, isumF, lastM) →
        ts = (frs.map FoldResult.y_true).flatten ∧
        ps = (frs.map FoldResult.y_pred).flatten ∧
        frs.map FoldResult.fold_id = folds.map FoldSplit.fold_id ∧
        frs.map FoldResult.test_size = folds.map (fun f => f.test_end - f.test_start) ∧
        frs.map FoldResult.y_true = folds.map (fun f => slice y f.test_start f.test_end) ∧
        isumF = (frs.filterMap FoldResult.feature_importance).foldl impAcc isum ∧
        frs.map FoldResult.y_proba = folds.map (fun f => (foldProba ms X y f).toOption) := by
  intro folds
  induction folds with
  | nil =>
    intro isum frs ts ps isumF lastM h
    rw [runFolds] at h
    cases h
    simp
  | cons f rest ih =>
    intro isum frs ts ps isumF lastM h
    rw [runFolds] at h
    cases hfit : ms.fit (slice X f.train_start f.train_end) (slice y f.train_start f.train_end) with
    | error e => simp only [hfit] at h; exact Except.noConfusion h
    | ok fitted =>
      simp only [hfit] at h
      cases hpr : fitted.predict (slice X f.test_start f.test_end) with
      | error e => simp only [hpr] at h; exact Except.noConfusion h
      | ok ypred =>
        simp only [hpr] at h
        cases hm : compute_metrics (slice y f.test_start f.test_end) ypred mnames with
        | error e => simp only [hm] at h; exact Except.noConfusion h
        | ok mets =>
          simp only [hm] at h
          cases hrec : runFolds ms X y mnames rest (impAcc isum fitted.feature_importance) with
          | error e => simp only [hrec] at h; exact Except.noConfusion h
          | ok out =>
            obtain ⟨frs2, ts2, ps2, isum2, last2⟩ := out
            simp only [hrec] at h
            cases h
            obtain ⟨e1, e2, e3, e4, e5, e6, e7⟩ := ih hrec
            refine ⟨by simp [e1], by simp [e2], by simp [e3], by simp [e4],
              by simp [e5], by simp [e6], ?_⟩
            simp [e7, foldProba, hfit]

/-- C4 amended, part 2: the driver's internal `importance_sum` accumulator equals the
elementwise left-fold of the per-fold importance vectors that the result does expose;
the `BacktestResult` itself carries only those per-fold vectors. -/
theorem run_importance_sum_eq_fold_sum (ms : ModelSpec) (X : List (List ℚ)) (y : List Nat)
    (init oos step : Nat) (mnames : Option (List String))
    (hok : exOk (run_walk_forward ms X y init oos step mnames) = true) :
    run_importance_sum ms X y init oos step mnames =
      (run_walk_forward ms X y init oos step mnames).map
        (fun R => importance_fold_sum (R.folds.filterMap FoldResult.feature_importance)) := by
  rw [run_walk_forward] at hok
  rw [run_walk_forward, run_importance_sum]
  cases hsplit : walk_forward_split X.length init oos step with
  | error e => simp only [hsplit, exOk] at hok; exact Bool.noConfusion hok
  | ok folds =>
    simp only [hsplit] at hok ⊢
    cases hrun : runFolds ms X y mnames folds none with
    | error e => simp only [hrun, exOk] at hok; exact Bool.noConfusion hok
    | ok out =>
      obtain ⟨frs, ts, ps, isum, lastM⟩ := out
      simp only [hrun] at hok ⊢
      cases hagg : compute_metrics ts ps mnames with
      | error e => simp only [hagg, exOk] at hok; exact Bool.noConfusion hok
      | ok agg =>
        simp only [hagg] at hok ⊢
        obtain ⟨-, -, -, -, -, e6, -⟩ := runFolds_ok_struct hrun
        simp [Except.map, e6, importance_fold_sum]

/-- Witness for the C4 amended theorem: a concrete two-fold run with per-fold
importance `[1]`, whose exposed per-fold vectors fold-sum to the raw sum `[2]`. -/
theorem run_importance_sum_eq_fold_sum_witness :
    (exOk (run_walk_forward (constModel [1]) [[0], [0], [0], [0]] [0, 1, 0, 1] 2 1 1
        (some ["accuracy"])) = true) ∧
      run_importance_sum (constModel [1]) [[0], [0], [0], [0]] [0, 1, 0, 1] 2 1 1
          (some ["accuracy"]) =
        (run_walk_forward (constModel [1]) [[0], [0], [0], [0]] [0, 1, 0, 1] 2 1 1
            (some ["accuracy"])).map
          (fun R => importance_fold_sum (R.folds.filterMap FoldResult.feature_importance)) :=
  ⟨by decide,
    run_importance_sum_eq_fold_sum (constModel [1]) [[0], [0], [0], [0]] [0, 1, 0, 1] 2 1 1
      (some ["accuracy"]) (by decide)⟩

/-- C4 counterexample: in a concrete successful run the returned `BacktestResult`
carries only the per-fold importance vectors `[1]`; the raw cross-fold sum `[2]`,
though computed by the loop, appears in no exposed importance field. -/
theorem backtest_importance_sum_not_exposed :
    (run_walk_forward (constModel [1]) [[0], [0], [0], [0]] [0, 1, 0, 1] 2 1 1
        (some ["accuracy"])).map (fun R => R.folds.map FoldResult.feature_importance) =
      .ok [some [1], some [1]] ∧
    run_importance_sum (constModel [1]) [[0], [0], [0], [0]] [0, 1, 0, 1] 2 1 1
        (some ["accuracy"]) = .ok (some [2]) ∧
    some ([2] : List ℚ) ∉ [some ([1] : List ℚ), some [1]] := by
  refine ⟨by rfl, ?_, by decide⟩
  show run_importance_sum (constModel [1]) [[0], [0], [0], [0]] [0, 1, 0, 1] 2 1 1
      (some ["accuracy"]) = .ok (some [2])
  norm_num [run_importance_sum, walk_forward_split, wfLoop, runFolds, constModel,
    constFitted, impAcc, compute_metrics, computeMetricsGo, metricValue, slice]

theorem slice_length {l : List α} {a b : Nat} (hb : b ≤ l.length) (hab : a ≤ b) :
    (slice l a b).length = b - a := by
  simp [slice]
  omega

/-- C8: the concatenated arrays of a walk-forward run are the per-fold test
labels/predictions concatenated in increasing fold order (fold ids are `0, 1, …`),
their length is the sum of the per-fold `test_size`s, and the aggregate metrics are
`compute_metrics` over the pooled concatenation. -/
theorem run_walk_forward_aggregation (ms : ModelSpec) (X : List (List ℚ)) (y : List Nat)
    (init oos step : Nat) (mnames : Option (List String))
    (hstep : 0 < step) (hy : y.length = X.length) :
    (run_walk_forward ms X y init oos step mnames).map (fun R => R.all_y_true) =
        (run_walk_forward ms X y init oos step mnames).map
          (fun R => (R.folds.map FoldResult.y_true).flatten) ∧
      (run_walk_forward ms X y init oos step mnames).map (fun R => R.all_y_pred) =
        (run_walk_forward ms X y init oos step mnames).map
          (fun R => (R.folds.map FoldResult.y_pred).flatten) ∧
      (run_walk_forward ms X y init oos step mnames).map (fun R => R.all_y_true.length) =
        (run_walk_forward ms X y init oos step mnames).map
          (fun R => (R.folds.map FoldResult.test_size).sum) ∧
      (run_walk_forward ms X y init oos step mnames).map
          (fun R => compute_metrics R.all_y_true R.all_y_pred mnames) =
        (run_walk_forward ms X y init oos step mnames).map
          (fun R => Except.ok R.aggregate_metrics) ∧
      (run_walk_forward ms X y init oos step mnames).map (fun R => R.folds.map FoldResult.fold_id) =
        (run_walk_forward ms X y init oos step mnames).map
          (fun R => List.range R.folds.length) := by
  rw [run_walk_forward]
  cases hsplit : walk_forward_split X.length init oos step with
  | error e => simp [Except.map]
  | ok folds =>
    simp only
    cases hrun : runFolds ms X y mnames folds none with
    | error e => simp [Except.map]
    | ok out =>
      obtain ⟨frs, ts, ps, isum, lastM⟩ := out
      simp only
      cases hagg : compute_metrics ts ps mnames with
      | error e => simp [Except.map]
      | ok agg =>
        simp only [Except.map]
        obtain ⟨e1, e2, e3, e4, e5, -, -⟩ := runFolds_ok_struct hrun
        obtain ⟨hfolds, -, -⟩ := walk_forward_split_ok hsplit
        refine ⟨by simp [e1], by simp [e2], ?_, by simp [hagg], ?_⟩
        · have hlen : frs.map (fun fr => fr.y_true.length) =
              folds.map (fun f => f.test_end - f.test_start) := by
            have hcomp :=
              calc frs.map (fun fr => fr.y_true.length)
                  = folds.map (fun f => (slice y f.test_start f.test_end).length) := by
                    have h := congrArg (List.map List.length) e5
                    rw [List.map_map, List.map_map] at h
                    simpa [Function.comp] using h
                _ = folds.map (fun f => f.test_end - f.test_start) := by
                    refine List.map_congr_left ?_
                    intro f hf
                    rw [hfolds] at hf
                    obtain ⟨-, h2, h3, h4, -⟩ := wfLoop_mem hf
                    exact slice_length (by omega) (by omega)
            exact hcomp
          simp only [Except.ok.injEq]
          rw [e1, List.length_flatten, List.map_map, e4, ← hlen]
          rfl
        · simp only [Except.ok.injEq]
          have hl : frs.length = (wfLoop X.length oos step (X.length + 1) init 0).length := by
            have h := congrArg List.length e3
            simp only [List.length_map] at h
            rw [h, hfolds]
          rw [e3, hfolds, wfLoop_fold_ids, List.range_eq_range', hl]

/-- Witness for C8's aggregation consistency at a concrete two-fold run. -/
theorem run_walk_forward_aggregation_witness :
    ((0 < 1) ∧ ([0, 1, 0, 1] : List Nat).length = ([[0], [0], [0], [0]] : List (List ℚ)).length) ∧
      ((run_walk_forward (constModel [1]) [[0], [0], [0], [0]] [0, 1, 0, 1] 2 1 1
            (some ["accuracy"])).map (fun R => R.all_y_true) =
          (run_walk_forward (constModel [1]) [[0], [0], [0], [0]] [0, 1, 0, 1] 2 1 1
              (some ["accuracy"])).map (fun R => (R.folds.map FoldResult.y_true).flatten) ∧
        (run_walk_forward (constModel [1]) [[0], [0], [0], [0]] [0, 1, 0, 1] 2 1 1
              (some ["accuracy"])).map (fun R => R.all_y_pred) =
          (run_walk_forward (constModel [1]) [[0], [0], [0], [0]] [0, 1, 0, 1] 2 1 1
              (some ["accuracy"])).map (fun R => (R.folds.map FoldResult.y_pred).flatten) ∧
        (run_walk_forward (constModel [1]) [[0], [0], [0], [0]] [0, 1, 0, 1] 2 1 1
              (some ["accuracy"])).map (fun R => R.all_y_true.length) =
          (run_walk_forward (constModel [1]) [[0], [0], [0], [0]] [0, 1, 0, 1] 2 1 1
              (some ["accuracy"])).map (fun R => (R.folds.map FoldResult.test_size).sum) ∧
        (run_walk_forward (constModel [1]) [[0], [0], [0], [0]] [0, 1, 0, 1] 2 1 1
              (some ["accuracy"])).map
            (fun R => compute_metrics R.all_y_true R.all_y_pred (some ["accuracy"])) =
          (run_walk_forward (constModel [1]) [[0], [0], [0], [0]] [0, 1, 0, 1] 2 1 1
              (some ["accuracy"])).map (fun R => Except.ok R.aggregate_metrics) ∧
        (run_walk_forward (constModel [1]) [[0], [0], [0], [0]] [0, 1, 0, 1] 2 1 1
              (some ["accuracy"])).map (fun R => R.folds.map FoldResult.fold_id) =
          (run_walk_forward (constModel [1]) [[0], [0], [0], [0]] [0, 1, 0, 1] 2 1 1
              (some ["accuracy"])).map (fun R => List.range R.folds.length)) :=
  ⟨⟨by decide, by decide⟩,
    run_walk_forward_aggregation (constModel [1]) [[0], [0], [0], [0]] [0, 1, 0, 1] 2 1 1
      (some ["accuracy"]) (by decide) (by decide)⟩

/-! ### Error policy of the driver (C7) -/

theorem mem_slice {l : List α} {a b : Nat} {x : α} (h : x ∈ slice l a b) : x ∈ l :=
  List.mem_of_mem_drop (List.mem_of_mem_take h)

theorem metricValue_no_error {y1 y2 : List Nat} (h1 : ∀ v ∈ y1, v ≤ 1)
    (h2 : ∀ v ∈ y2, v ≤ 1) : ∀ nm e, metricValue y1 y2 nm ≠ some (.error e) := by
  intro nm e h
  unfold metricValue at h
  split at h <;>
    simp_all [f1_binary_score, precision_binary_score, recall_binary_score,
      binaryCheck_ok h1 h2, Except.map]

theorem computeMetricsGo_ok {y1 y2 : List Nat} (h1 : ∀ v ∈ y1, v ≤ 1)
    (h2 : ∀ v ∈ y2, v ≤ 1) : ∀ names, ∃ r, computeMetricsGo y1 y2 names = .ok r := by
  intro names
  induction names with
  | nil => exact ⟨[], rfl⟩
  | cons nm rest ih =>
    obtain ⟨r, hr⟩ := ih
    rw [computeMetricsGo]
    cases hmv : metricValue y1 y2 nm with
    | none => exact ⟨r, by simp only [hmv]; exact hr⟩
    | some ex =>
      cases ex with
      | error e => exact absurd hmv (metricValue_no_error h1 h2 nm e)
      | ok v =>
        refine ⟨(nm, v) :: r, ?_⟩
        simp only [hmv, hr]

theorem compute_metrics_ok {y1 y2 : List Nat} (hlen : y1.length = y2.length)
    (hpos : 0 < y1.length) (h1 : ∀ v ∈ y1, v ≤ 1) (h2 : ∀ v ∈ y2, v ≤ 1)
    (names : Option (List String)) : ∃ m, compute_metrics y1 y2 names = .ok m := by
  rw [compute_metrics, if_pos ⟨hlen, hpos⟩]
  exact computeMetricsGo_ok h1 h2 _

theorem runFolds_ok_outcomes {ms : ModelSpec} {X : List (List ℚ)} {y : List Nat}
    {mnames : Option (List String)} :
    ∀ {folds : List FoldSplit} {isum out},
      runFolds ms X y mnames folds isum = .ok out →
      ∀ f ∈ folds, exOk (foldOutcome ms X y f) = true := by
  intro folds
  induction folds with
  | nil => intro isum out h f hf; simp at hf
  | cons g rest ih =>
    intro isum out h f hf
    rw [runFolds] at h
    cases hfit : ms.fit (slice X g.train_start g.train_end) (slice y g.train_start g.train_end) with
    | error e => simp only [hfit] at h; exact Except.noConfusion h
    | ok fitted =>
      simp only [hfit] at h
      cases hpr : fitted.predict (slice X g.test_start g.test_end) with
      | error e => simp only [hpr] at h; exact Except.noConfusion h
      | ok ypred =>
        simp only [hpr] at h
        cases hm : compute_metrics (slice y g.test_start g.test_end) ypred mnames with
        | error e => simp only [hm] at h; exact Except.noConfusion h
        | ok mets =>
          simp only [hm] at h
          cases hrec : runFolds ms X y mnames rest (impAcc isum fitted.feature_importance) with
          | error e => simp only [hrec] at h; exact Except.noConfusion h
          | ok out2 =>
            rcases List.mem_cons.mp hf with hfg | hf2
            · subst hfg
              simp [foldOutcome, hfit, hpr, exOk]
            · exact ih hrec f hf2

theorem runFolds_ok_of_outcomes {ms : ModelSpec} {X : List (List ℚ)} {y : List Nat}
    {mnames : Option (List String)}
    (hy : y.length = X.length) (hybin : ∀ v ∈ y, v ≤ 1)
    (hpred : ∀ Xtr ytr ft, ms.fit Xtr ytr = .ok ft → ∀ Xte l, ft.predict Xte = .ok l →
      l.length = Xte.length ∧ ∀ v ∈ l, v ≤ 1) :
    ∀ (folds : List FoldSplit) (isum : Option (List ℚ)),
      (∀ f ∈ folds, f.test_start < f.test_end ∧ f.test_end ≤ X.length ∧
        exOk (foldOutcome ms X y f) = true) →
      ∃ frs ts ps isumF lastM,
        runFolds ms X y mnames folds isum = .ok (frs, ts, ps, isumF, lastM) ∧
          ts.length = (folds.map (fun f => f.test_end - f.test_start)).sum ∧
          ps.length = ts.length ∧ (∀ v ∈ ts, v ≤ 1) ∧ (∀ v ∈ ps, v ≤ 1) := by
  intro folds
  induction folds with
  | nil =>
    intro isum hall
    exact ⟨[], [], [], isum, none, rfl, by simp, by simp, by simp, by simp⟩
  | cons g rest ih =>
    intro isum hall
    obtain ⟨hlt, hle, hout⟩ := hall g (List.mem_cons_self g rest)
    cases hfit : ms.fit (slice X g.train_start g.train_end) (slice y g.train_start g.train_end) with
    | error e => simp [foldOutcome, hfit, exOk] at hout
    | ok fitted =>
      cases hpr : fitted.predict (slice X g.test_start g.test_end) with
      | error e => simp [foldOutcome, hfit, hpr, exOk] at hout
      | ok ypred =>
        obtain ⟨hplen, hpbin⟩ := hpred _ _ _ hfit _ _ hpr
        have hXlen : (slice X g.test_start g.test_end).length = g.test_end - g.test_start :=
          slice_length hle (by omega)
        have hylen : (slice y g.test_start g.test_end).length = g.test_end - g.test_start :=
          slice_length (by omega) (by omega)
        have hytebin : ∀ v ∈ slice y g.test_start g.test_end, v ≤ 1 :=
          fun v hv => hybin v (mem_slice hv)
        obtain ⟨mets, hm⟩ := compute_metrics_ok (by omega) (by omega) hytebin hpbin mnames
        obtain ⟨frs2, ts2, ps2, isF, lM, hrec, hts, hps, hbt, hbp⟩ :=
          ih (impAcc isum fitted.feature_importance)
            (fun f hf => hall f (List.mem_cons_of_mem _ hf))
        refine ⟨(⟨g.fold_id, g.train_end - g.train_start, g.test_end - g.test_start, mets,
              slice y g.test_start g.test_end, ypred,
              (fitted.predict_proba (slice X g.test_start g.test_end)).toOption,
              some fitted.feature_importance⟩ : FoldResult) :: frs2,
            slice y g.test_start g.test_end ++ ts2, ypred ++ ps2, isF,
            some (lM.getD fitted), ?_, ?_, ?_, ?_, ?_⟩
        · rw [runFolds]
          simp only [hfit, hpr, hm, hrec]
        · simp [hylen, hts]
        · simp [hplen, hXlen, hylen, hps]
        · intro v hv
          rcases List.mem_append.mp hv with hv | hv
          · exact hytebin v hv
          · exact hbt v hv
        · intro v hv
          rcases List.mem_append.mp hv with hv | hv
          · exact hpbin v hv
          · exact hbp v hv

theorem split_fold_props {n init oos step : Nat} {folds : List FoldSplit} (hoos : 0 < oos)
    (h : walk_forward_split n init oos step = .ok folds) :
    ∀ f ∈ folds, f.test_start < f.test_end ∧ f.test_end ≤ n := by
  obtain ⟨hf, -, -⟩ := walk_forward_split_ok h
  subst hf
  intro f hmem
  obtain ⟨-, h2, h3, h4, -⟩ := wfLoop_mem hmem
  omega

/-- C7 amended: `predict_proba` failures are stored as `None` per fold while the run
succeeds, and — provided labels and predictions are binary-coded, so that the metric
layer itself cannot raise — `run_walk_forward` raises exactly when fold generation
raises or some fold's `fit`/`predict` raises.  (The original claim is refuted by
`run_walk_forward_metric_raise`: `compute_metrics` can also raise.) -/
theorem run_walk_forward_error_policy (ms : ModelSpec) (X : List (List ℚ)) (y : List Nat)
    (init oos step : Nat) (mnames : Option (List String))
    (hstep : 0 < step) (hoos : 0 < oos) (hy : y.length = X.length)
    (hybin : ∀ v ∈ y, v ≤ 1)
    (hpred : ∀ Xtr ytr ft, ms.fit Xtr ytr = .ok ft → ∀ Xte l, ft.predict Xte = .ok l →
      l.length = Xte.length ∧ ∀ v ∈ l, v ≤ 1) :
    (exOk (run_walk_forward ms X y init oos step mnames) =
        (match walk_forward_split X.length init oos step with
         | .error _ => false
         | .ok folds => folds.all (fun f => exOk (foldOutcome ms X y f)))) ∧
      (∀ folds R, walk_forward_split X.length init oos step = .ok folds →
        run_walk_forward ms X y init oos step mnames = .ok R →
        R.folds.map FoldResult.y_proba = folds.map (fun f => (foldProba ms X y f).toOption)) := by
  constructor
  · rw [run_walk_forward]
    cases hsplit : walk_forward_split X.length init oos step with
    | error e => simp [exOk]
    | ok folds =>
      simp only
      have hprops := split_fold_props hoos hsplit
      by_cases hall : ∀ f ∈ folds, exOk (foldOutcome ms X y f) = true
      · obtain ⟨frs, ts, ps, isF, lM, hrun, hts, hps, hbt, hbp⟩ :=
          @runFolds_ok_of_outcomes ms X y mnames hy hybin hpred folds none
            (fun f hf => ⟨(hprops f hf).1, (hprops f hf).2, hall f hf⟩)
        simp only [hrun]
        have hpos : 0 < ts.length := by
          obtain ⟨-, -, hne⟩ := walk_forward_split_ok hsplit
          cases folds with
          | nil => exact absurd rfl hne
          | cons g rest =>
            have hg := hprops g (List.mem_cons_self g rest)
            rw [hts]
            simp only [List.map_cons, List.sum_cons]
            omega
        obtain ⟨agg, hagg⟩ := compute_metrics_ok (by omega) hpos hbt hbp mnames
        simp only [hagg]
        exact (List.all_eq_true.mpr hall).symm.trans rfl
      · have hrhs : folds.all (fun f => exOk (foldOutcome ms X y f)) = false := by
          cases hb : folds.all (fun f => exOk (foldOutcome ms X y f)) with
          | true => exact absurd (List.all_eq_true.mp hb) hall
          | false => rfl
        rw [hrhs]
        cases hrun : runFolds ms X y mnames folds none with
        | error e => simp [hrun, exOk]
        | ok out => exact absurd (runFolds_ok_outcomes hrun) hall
  · intro folds R hsplit hrunAll
    rw [run_walk_forward] at hrunAll
    simp only [hsplit] at hrunAll
    cases hrun : runFolds ms X y mnames folds none with
    | error e => simp only [hrun] at hrunAll; exact Except.noConfusion hrunAll
    | ok out =>
      obtain ⟨frs, ts, ps, isF, lM⟩ := out
      simp only [hrun] at hrunAll
      cases hagg : compute_metrics ts ps mnames with
      | error e => simp only [hagg] at hrunAll; exact Except.noConfusion hrunAll
      | ok agg =>
        simp only [hagg] at hrunAll
        cases hrunAll
        obtain ⟨-, -, -, -, -, -, e7⟩ := runFolds_ok_struct hrun
        simpa using e7

/-- The `constModel` satisfies the prediction shape/coding contract used by the
error-policy theorem. -/
theorem constModel_pred_props (fi : List ℚ) :
    ∀ Xtr ytr ft, (constModel fi).fit Xtr ytr = .ok ft →
      ∀ Xte l, ft.predict Xte = .ok l → l.length = Xte.length ∧ ∀ v ∈ l, v ≤ 1 := by
  intro Xtr ytr ft hft Xte l hl
  have hft2 : constFitted fi = ft := Except.ok.inj hft
  subst hft2
  have hl2 : Xte.map (fun _ => 0) = l := Except.ok.inj hl
  subst hl2
  refine ⟨by simp, ?_⟩
  intro v hv
  rcases List.mem_map.mp hv with ⟨a, -, hva⟩
  omega

/-- Witness for C7's amended theorem: a concrete run whose classifier has no
`predict_proba` (it always raises) still succeeds, and the success condition matches
the per-fold `fit`/`predict` outcomes. -/
theorem run_walk_forward_error_policy_witness :
    ((0 < 1) ∧ (0 < 1) ∧ ([0, 1, 0] : List Nat).length = ([[0], [0], [0]] : List (List ℚ)).length ∧
        (∀ v ∈ ([0, 1, 0] : List Nat), v ≤ 1)) ∧
      ((exOk (run_walk_forward (constModel [1]) [[0], [0], [0]] [0, 1, 0] 1 1 1
            (some ["accuracy"])) =
          (match walk_forward_split ([[0], [0], [0]] : List (List ℚ)).length 1 1 1 with
           | .error _ => false
           | .ok folds => folds.all
               (fun f => exOk (foldOutcome (constModel [1]) [[0], [0], [0]] [0, 1, 0] f)))) ∧
        (∀ folds R, walk_forward_split ([[0], [0], [0]] : List (List ℚ)).length 1 1 1 = .ok folds →
          run_walk_forward (constModel [1]) [[0], [0], [0]] [0, 1, 0] 1 1 1
              (some ["accuracy"]) = .ok R →
          R.folds.map FoldResult.y_proba =
            folds.map (fun f => (foldProba (constModel [1]) [[0], [0], [0]] [0, 1, 0] f).toOption))) :=
  ⟨⟨by decide, by decide, by decide, by decide⟩,
    run_walk_forward_error_policy (constModel [1]) [[0], [0], [0]] [0, 1, 0] 1 1 1
      (some ["accuracy"]) (by decide) (by decide) (by decide) (by decide)
      (constModel_pred_props [1])⟩

/-- C7 counterexample: a run in which fold generation succeeds and the only fold's
`fit` and `predict` both succeed, yet `run_walk_forward` raises — the metric layer
(`f1_binary` on the 3-class labels) raises, refuting "raises if and only if fold
generation or some fold's fit/predict raises". -/
theorem run_walk_forward_metric_raise :
    exOk (run_walk_forward (constModel [1]) [[0], [0], [0]] [0, 1, 2] 1 2 5
        (some ["f1_binary"])) = false ∧
      walk_forward_split 3 1 2 5 = .ok [⟨0, 0, 1, 1, 3⟩] ∧
      exOk (foldOutcome (constModel [1]) [[0], [0], [0]] [0, 1, 2] ⟨0, 0, 1, 1, 3⟩) = true := by
  refine ⟨by decide, by decide, by decide⟩

/-! ### Threshold optimizer theorems (C9, C10) -/

theorem optStep_excluded {y1 : List Nat} {proba : List ℚ} {metric : ThMetric} {minPrec : ℚ}
    {t : ℚ} (h : excludedCand y1 proba minPrec t) (best : ℚ × WithBot ℚ) :
    optStep y1 proba metric minPrec best t = best := by
  rw [optStep, evalCand, if_pos h]

theorem foldl_optStep_spec (y1 : List Nat) (proba : List ℚ) (metric : ThMetric)
    (minPrec : ℚ) :
    ∀ (ths : List ℚ) (acc : ℚ × WithBot ℚ) (r : ℚ × WithBot ℚ),
      r = ths.foldl (optStep y1 proba metric minPrec) acc →
      (r = acc ∧ ∀ t ∈ ths, ∀ u : ℚ, evalCand y1 proba metric minPrec t = some u →
          (u : WithBot ℚ) ≤ acc.2) ∨
        (∃ s : ℚ, ∃ l1 l2 : List ℚ, ths = l1 ++ r.1 :: l2 ∧ r.2 = (s : WithBot ℚ) ∧
          evalCand y1 proba metric minPrec r.1 = some s ∧ acc.2 < (s : WithBot ℚ) ∧
          (∀ t ∈ l1, ∀ u : ℚ, evalCand y1 proba metric minPrec t = some u → u < s) ∧
          (∀ t ∈ ths, ∀ u : ℚ, evalCand y1 proba metric minPrec t = some u → u ≤ s)) := by
  intro ths
  induction ths with
  | nil =>
    intro acc r hr
    exact Or.inl ⟨hr, by simp⟩
  | cons t rest ih =>
    intro acc r hr
    rw [List.foldl_cons] at hr
    cases hev : evalCand y1 proba metric minPrec t with
    | none =>
      simp only [optStep, hev] at hr
      rcases ih acc r hr with ⟨h1, h2⟩ | ⟨s, l1, l2, heq, hr2, hevr, hacc, hearly, hall⟩
      · refine Or.inl ⟨h1, ?_⟩
        intro u hu v hv
        rcases List.mem_cons.mp hu with hu | hu
        · subst hu; rw [hev] at hv; exact Option.noConfusion hv
        · exact h2 u hu v hv
      · refine Or.inr ⟨s, t :: l1, l2, by simp [heq], hr2, hevr, hacc, ?_, ?_⟩
        · intro u hu v hv
          rcases List.mem_cons.mp hu with hu | hu
          · subst hu; rw [hev] at hv; exact Option.noConfusion hv
          · exact hearly u hu v hv
        · intro u hu v hv
          rcases List.mem_cons.mp hu with hu | hu
          · subst hu; rw [hev] at hv; exact Option.noConfusion hv
          · exact hall u hu v hv
    | some s0 =>
      simp only [optStep, hev] at hr
      by_cases hlt : acc.2 < (s0 : WithBot ℚ)
      · rw [if_pos hlt] at hr
        rcases ih (t, (s0 : WithBot ℚ)) r hr with
          ⟨h1, h2⟩ | ⟨s, l1, l2, heq, hr2, hevr, hacc, hearly, hall⟩
        · subst h1
          refine Or.inr ⟨s0, [], rest, by simp, rfl, hev, hlt, by simp, ?_⟩
          intro u hu v hv
          rcases List.mem_cons.mp hu with hu | hu
          · subst hu; rw [hev] at hv; exact le_of_eq (Option.some.inj hv).symm
          · have := h2 u hu v hv
            simpa using this
        · have hs0s : s0 < s := by simpa using hacc
          refine Or.inr ⟨s, t :: l1, l2, by simp [heq], hr2, hevr,
            lt_trans hlt (by simpa using hs0s), ?_, ?_⟩
          · intro u hu v hv
            rcases List.mem_cons.mp hu with hu | hu
            · subst hu; rw [hev] at hv; exact (Option.some.inj hv) ▸ hs0s
            · exact hearly u hu v hv
          · intro u hu v hv
            rcases List.mem_cons.mp hu with hu | hu
            · subst hu; rw [hev] at hv; exact (Option.some.inj hv) ▸ le_of_lt hs0s
            · exact hall u hu v hv
      · rw [if_neg hlt] at hr
        have hle : (s0 : WithBot ℚ) ≤ acc.2 := not_lt.mp hlt
        rcases ih acc r hr with ⟨h1, h2⟩ | ⟨s, l1, l2, heq, hr2, hevr, hacc, hearly, hall⟩
        · refine Or.inl ⟨h1, ?_⟩
          intro u hu v hv
          rcases List.mem_cons.mp hu with hu | hu
          · subst hu; rw [hev] at hv; exact (Option.some.inj hv) ▸ hle
          · exact h2 u hu v hv
        · refine Or.inr ⟨s, t :: l1, l2, by simp [heq], hr2, hevr, hacc, ?_, ?_⟩
          · intro u hu v hv
            rcases List.mem_cons.mp hu with hu | hu
            · subst hu
              rw [hev] at hv
              have : (v : WithBot ℚ) < (s : WithBot ℚ) :=
                lt_of_le_of_lt ((Option.some.inj hv) ▸ hle) hacc
              simpa using this
            · exact hearly u hu v hv
          · intro u hu v hv
            rcases List.mem_cons.mp hu with hu | hu
            · subst hu
              rw [hev] at hv
              have : (v : WithBot ℚ) ≤ (s : WithBot ℚ) :=
                le_of_lt (lt_of_le_of_lt ((Option.some.inj hv) ▸ hle) hacc)
              simpa using this
            · exact hall u hu v hv

/-- C9 amended: candidates yielding an all-one-class prediction, or (under a positive
`min_precision`) a precision below the floor, contribute no score at all; among the
remaining candidates the returned threshold is the FIRST in the supplied order to
achieve the maximum observed score (for the ascending default grid this is the lowest
threshold among ties), and its score is the maximum over all candidates. -/
theorem optimize_threshold_first_max (y1 : List Nat) (proba : List ℚ) (metric : ThMetric)
    (ths : List ℚ) (minPrec : ℚ)
    (hbin : ∀ v ∈ y1, v ≤ 1)
    (hex : ∃ t ∈ ths, (evalCand y1 proba metric minPrec t).isSome) :
    (∀ t, excludedCand y1 proba minPrec t → evalCand y1 proba metric minPrec t = none) ∧
      ∃ s : ℚ, ∃ l1 l2 : List ℚ,
        ths = l1 ++ (optimize_threshold y1 proba metric ths minPrec).1 :: l2 ∧
        (optimize_threshold y1 proba metric ths minPrec).2 = (s : WithBot ℚ) ∧
        evalCand y1 proba metric minPrec (optimize_threshold y1 proba metric ths minPrec).1 =
          some s ∧
        (∀ t ∈ l1, ∀ u : ℚ, evalCand y1 proba metric minPrec t = some u → u < s) ∧
        (∀ t ∈ ths, ∀ u : ℚ, evalCand y1 proba metric minPrec t = some u → u ≤ s) := by
  refine ⟨fun t h => by rw [evalCand, if_pos h], ?_⟩
  rcases foldl_optStep_spec y1 proba metric minPrec ths (1 / 2, ⊥)
      (optimize_threshold y1 proba metric ths minPrec) rfl with
    ⟨-, h2⟩ | ⟨s, l1, l2, heq, hr2, hevr, -, hearly, hall⟩
  · exfalso
    obtain ⟨t, ht, hsome⟩ := hex
    obtain ⟨u, hu⟩ := Option.isSome_iff_exists.mp hsome
    have := h2 t ht u hu
    simp at this
  · exact ⟨s, l1, l2, heq, hr2, hevr, hearly, hall⟩

/-- Witness for C9's amended theorem at `y_true = [1,0]`, `y_proba = [3,1]`,
candidates `[3,2]`. -/
theorem optimize_threshold_first_max_witness :
    ((∀ v ∈ ([1, 0] : List Nat), v ≤ 1) ∧
        (∃ t ∈ ([3, 2] : List ℚ), (evalCand [1, 0] [3, 1] .f1 0 t).isSome)) ∧
      ((∀ t, excludedCand [1, 0] [3, 1] 0 t → evalCand [1, 0] [3, 1] .f1 0 t = none) ∧
        ∃ s : ℚ, ∃ l1 l2 : List ℚ,
          ([3, 2] : List ℚ) = l1 ++ (optimize_threshold [1, 0] [3, 1] .f1 [3, 2] 0).1 :: l2 ∧
          (optimize_threshold [1, 0] [3, 1] .f1 [3, 2] 0).2 = (s : WithBot ℚ) ∧
          evalCand [1, 0] [3, 1] .f1 0 (optimize_threshold [1, 0] [3, 1] .f1 [3, 2] 0).1 =
            some s ∧
          (∀ t ∈ l1, ∀ u : ℚ, evalCand [1, 0] [3, 1] .f1 0 t = some u → u < s) ∧
          (∀ t ∈ ([3, 2] : List ℚ), ∀ u : ℚ, evalCand [1, 0] [3, 1] .f1 0 t = some u → u ≤ s)) :=
  ⟨⟨by decide, ⟨3, by decide, by decide⟩⟩,
    optimize_threshold_first_max [1, 0] [3, 1] .f1 [3, 2] 0 (by decide)
      ⟨3, by decide, by decide⟩⟩

/-- C9 counterexample: with the descending candidate list `[3, 2]` both candidates
survive exclusion and score the maximal F1 of `1`, but the returned threshold is `3`,
the FIRST candidate in iteration order — not the lowest (`2`) among the maximum
achievers, refuting the tie-break as claimed. -/
theorem optimize_threshold_not_lowest :
    optimize_threshold [1, 0] [3, 1] .f1 [3, 2] 0 = (3, ((1 : ℚ) : WithBot ℚ)) ∧
      evalCand [1, 0] [3, 1] .f1 0 2 = some 1 ∧
      (2 : ℚ) < 3 ∧ (2 : ℚ) ∈ ([3, 2] : List ℚ) := by
  refine ⟨?_, ?_, by norm_num, by norm_num⟩
  · have h1 : (⊥ : WithBot ℚ) < 1 := bot_lt_iff_ne_bot.mpr (by simp)
    norm_num [optimize_threshold, optStep, evalCand, excludedCand, apply_threshold,
      thScore, f1_class, cnt, pairCnt, h1, lt_self_iff_false]
  · norm_num [evalCand, excludedCand, apply_threshold, thScore, f1_class, cnt, pairCnt]

theorem foldl_optStep_all_excluded {y1 : List Nat} {proba : List ℚ} {metric : ThMetric}
    {minPrec : ℚ} :
    ∀ (ths : List ℚ) (acc : ℚ × WithBot ℚ),
      (∀ t ∈ ths, excludedCand y1 proba minPrec t) →
      ths.foldl (optStep y1 proba metric minPrec) acc = acc := by
  intro ths
  induction ths with
  | nil => intro acc h; rfl
  | cons t rest ih =>
    intro acc h
    rw [List.foldl_cons, optStep_excluded (h t (List.mem_cons_self t rest))]
    exact ih acc (fun u hu => h u (List.mem_cons_of_mem t hu))

/-- C10: when every candidate threshold is excluded (all-one-class prediction, or a
binary precision below a positive `min_precision` floor), `optimize_threshold` does
not raise and returns the fallback `(0.5, -inf)`. -/
theorem optimize_threshold_fallback (y1 : List Nat) (proba : List ℚ) (metric : ThMetric)
    (ths : List ℚ) (minPrec : ℚ)
    (hbin : ∀ v ∈ y1, v ≤ 1)
    (hexc : ∀ t ∈ ths, excludedCand y1 proba minPrec t) :
    optimize_threshold y1 proba metric ths minPrec = (1 / 2, ⊥) := by
  rw [optimize_threshold]
  exact foldl_optStep_all_excluded ths (1 / 2, ⊥) hexc

/-- Witness for C10 at a concrete all-excluded input (every prediction is the
positive class for the single candidate threshold). -/
theorem optimize_threshold_fallback_witness :
    ((∀ v ∈ ([0, 1] : List Nat), v ≤ 1) ∧
        (∀ t ∈ ([1] : List ℚ), excludedCand [0, 1] [1, 1] 0 t)) ∧
      optimize_threshold [0, 1] [1, 1] .f1 [1] 0 = (1 / 2, ⊥) :=
  ⟨⟨by decide, by decide⟩,
    optimize_threshold_fallback [0, 1] [1, 1] .f1 [1] 0 (by decide) (by decide)⟩

/-! ### Ensemble combiner theorems (C3, C5) -/

theorem npWhere_getD : ∀ (c aa bb : List Nat), c.length = aa.length → c.length = bb.length →
    ∀ i, i < c.length →
      (npWhere c aa bb).getD i 0 = if c.getD i 0 = 1 then aa.getD i 0 else bb.getD i 0 := by
  intro c
  induction c with
  | nil => intro aa bb h1 h2 i hi; simp at hi
  | cons x cs ih =>
    intro aa bb h1 h2 i hi
    cases aa with
    | nil => simp at h1
    | cons a aa2 =>
      cases bb with
      | nil => simp at h2
      | cons b bb2 =>
        cases i with
        | zero => simp [npWhere]
        | succ j =>
          simp only [npWhere, List.getD_cons_succ]
          exact ih aa2 bb2 (by simpa using h1) (by simpa using h2) j (by simpa using hi)

theorem combineFolds_parts (bp brp : List (List Nat)) (regime yBull : List Nat) :
    ∀ folds : List FoldSplit,
      (combineFolds bp brp regime yBull folds).1 =
        ((folds.filter (fun f => decide (f.fold_id < bp.length ∧ f.fold_id < brp.length))).map
          (fun f => slice yBull f.test_start f.test_end)).flatten ∧
      (combineFolds bp brp regime yBull folds).2.1 =
        ((folds.filter (fun f => decide (f.fold_id < bp.length ∧ f.fold_id < brp.length))).map
          (fun f => npWhere (slice regime f.test_start f.test_end)
            (bp.getD f.fold_id []) (brp.getD f.fold_id []))).flatten ∧
      (combineFolds bp brp regime yBull folds).2.2 =
        ((folds.filter (fun f => decide (f.fold_id < bp.length ∧ f.fold_id < brp.length))).map
          (fun f => slice regime f.test_start f.test_end)).flatten := by
  intro folds
  induction folds with
  | nil => simp [combineFolds]
  | cons f rest ih =>
    obtain ⟨ih1, ih2, ih3⟩ := ih
    by_cases h : f.fold_id < bp.length ∧ f.fold_id < brp.length
    · simp [combineFolds, h, ih1, ih2, ih3, List.filter_cons]
    · simp [combineFolds, h, ih1, ih2, ih3, List.filter_cons]

/-- C3: the hard regime gate.  (1) Elementwise, the combined prediction is the bull
(primary) prediction where the regime indicator is `1` and the bear (secondary)
prediction otherwise.  (2) Over the fold loop, for exactly the covered folds the
combined ground truth is the bull labels' test slice (the combination is scored
against the primary model's test labels) and the combined prediction stream is the
gated `np.where` of the two per-fold prediction vectors.  (3) The spec's concrete
example: regime `[1,0,1,0]`, primary `[1,1,1,1]`, secondary `[0,0,0,0]` combine to
`[1,0,1,0]`. -/
theorem ensemble_gate_rule :
    (∀ c aa bb : List Nat, c.length = aa.length → c.length = bb.length →
      ∀ i, i < c.length →
        (npWhere c aa bb).getD i 0 = if c.getD i 0 = 1 then aa.getD i 0 else bb.getD i 0) ∧
      (∀ (bp brp : List (List Nat)) (regime yBull : List Nat) (folds : List FoldSplit),
        (combineFolds bp brp regime yBull folds).1 =
          ((folds.filter
              (fun f => decide (f.fold_id < bp.length ∧ f.fold_id < brp.length))).map
            (fun f => slice yBull f.test_start f.test_end)).flatten ∧
        (combineFolds bp brp regime yBull folds).2.1 =
          ((folds.filter
              (fun f => decide (f.fold_id < bp.length ∧ f.fold_id < brp.length))).map
            (fun f => npWhere (slice regime f.test_start f.test_end)
              (bp.getD f.fold_id []) (brp.getD f.fold_id []))).flatten) ∧
      combineFolds [[1, 1, 1, 1]] [[0, 0, 0, 0]] [1, 0, 1, 0] [1, 0, 0, 1]
          [⟨0, 0, 0, 0, 4⟩] = ([1, 0, 0, 1], [1, 0, 1, 0], [1, 0, 1, 0]) :=
  ⟨npWhere_getD,
    fun bp brp regime yBull folds =>
      ⟨(combineFolds_parts bp brp regime yBull folds).1,
        (combineFolds_parts bp brp regime yBull folds).2.1⟩,
    by decide⟩

/-- Witness for C3's elementwise gate at position `1` of the spec's example. -/
theorem ensemble_gate_rule_witness :
    (([1, 0, 1, 0] : List Nat).length = ([1, 1, 1, 1] : List Nat).length ∧
        ([1, 0, 1, 0] : List Nat).length = ([0, 0, 0, 0] : List Nat).length ∧
        1 < ([1, 0, 1, 0] : List Nat).length) ∧
      (npWhere [1, 0, 1, 0] [1, 1, 1, 1] [0, 0, 0, 0]).getD 1 0 =
        (if ([1, 0, 1, 0] : List Nat).getD 1 0 = 1 then ([1, 1, 1, 1] : List Nat).getD 1 0
         else ([0, 0, 0, 0] : List Nat).getD 1 0) :=
  ⟨⟨by decide, by decide, by decide⟩,
    ensemble_gate_rule.1 [1, 0, 1, 0] [1, 1, 1, 1] [0, 0, 0, 0] (by decide) (by decide) 1
      (by decide)⟩

/-- C5 counterexample: `run_ensemble_evaluation` takes no regime argument — the
gating regime is derived from `close`.  With a short price series the internally
computed regime is all-zero (close never exceeds a 200-period mean that is still
NaN), so every combined prediction is the bear model's; a caller "supplying"
the all-ones regime, as the spec's contract describes, would obtain the bull
predictions instead.  The third conjunct exhibits the internal computation. -/
theorem ensemble_regime_not_supplied :
    run_ensemble_gating [1, 2, 3, 4, 5] [0, 1, 2, 3, 4] 1 4 4 [[1, 1, 1, 1]]
        [[0, 0, 0, 0]] [0, 0, 0, 0, 0] = .ok ([0, 0, 0, 0], [0, 0, 0, 0], [0, 0, 0, 0]) ∧
      run_ensemble_gating_spec [1, 1, 1, 1, 1] [0, 1, 2, 3, 4] 1 4 4 [[1, 1, 1, 1]]
        [[0, 0, 0, 0]] [0, 0, 0, 0, 0] = .ok ([0, 0, 0, 0], [1, 1, 1, 1], [1, 1, 1, 1]) ∧
      regime_bull [1, 2, 3, 4, 5] = [0, 0, 0, 0, 0] := by
  refine ⟨by decide, by decide, by decide⟩

/-- C5 amended: the combiner computes the regime itself — the gating series is
exactly `regime_bull close` (price above/below the 200-period rolling mean),
restricted to the valid index set — and the combination depends on the price series
only through that computed regime. -/
theorem ensemble_regime_internal (close : List ℚ) (validIdx : List Nat)
    (init oos step : Nat) (bullPreds bearPreds : List (List Nat)) (yBull : List Nat) :
    run_ensemble_gating close validIdx init oos step bullPreds bearPreds yBull =
        run_ensemble_gating_spec (regime_bull close) validIdx init oos step
          bullPreds bearPreds yBull ∧
      (∀ close2 : List ℚ, regime_bull close2 = regime_bull close →
        run_ensemble_gating close2 validIdx init oos step bullPreds bearPreds yBull =
          run_ensemble_gating close validIdx init oos step bullPreds bearPreds yBull) := by
  constructor
  · rfl
  · intro close2 h
    rw [run_ensemble_gating, run_ensemble_gating, h]

/-- Witness for C5's amended theorem: two different price series with the same
computed regime produce the same gating output. -/
theorem ensemble_regime_internal_witness :
    (regime_bull [5, 5, 5] = regime_bull [1, 2, 3]) ∧
      (run_ensemble_gating [1, 2, 3] [0, 1, 2] 1 2 2 [[1, 1]] [[0, 0]] [0, 1, 0] =
          run_ensemble_gating_spec (regime_bull [1, 2, 3]) [0, 1, 2] 1 2 2 [[1, 1]]
            [[0, 0]] [0, 1, 0] ∧
        run_ensemble_gating [5, 5, 5] [0, 1, 2] 1 2 2 [[1, 1]] [[0, 0]] [0, 1, 0] =
          run_ensemble_gating [1, 2, 3] [0, 1, 2] 1 2 2 [[1, 1]] [[0, 0]] [0, 1, 0]) :=
  ⟨by decide,
    (ensemble_regime_internal [1, 2, 3] [0, 1, 2] 1 2 2 [[1, 1]] [[0, 0]] [0, 1, 0]).1,
    (ensemble_regime_internal [1, 2, 3] [0, 1, 2] 1 2 2 [[1, 1]] [[0, 0]] [0, 1, 0]).2
      [5, 5, 5] (by decide)⟩

end FcstLab
